import Mathlib

/-!
Verification development for the push-notification analysis pipeline
(`streamlit_app.py`).  The numeric model `Fval` represents the IEEE-style
values that pandas/numpy produce for the operations the program uses:
finite values are exact rationals, plus NaN and the two infinities.
Column-wise division, means, variances and the Welch t-test are embedded
over this model; the tabular pipeline (variant remap, rate columns,
filtering, grouping, per-group testing, result-row construction) is
embedded over typed rows, and the dynamic column-lookup stage over an
association-list frame.
-/

/-- A floating-point value as produced by pandas/numpy for the operations the
program performs: an exact finite value, NaN, or an infinity. -/
inductive Fval where
  | num : ℚ → Fval
  | nan : Fval
  | inf : Fval
  | ninf : Fval
deriving DecidableEq, Repr

/-- NaN test. -/
def Fval.isNan : Fval → Bool
  | .nan => true
  | _ => false

/-- IEEE negation. -/
def Fval.neg : Fval → Fval
  | .num q => .num (-q)
  | .nan => .nan
  | .inf => .ninf
  | .ninf => .inf

/-- IEEE addition (restricted to the value classes the program can produce):
NaN propagates, opposite infinities give NaN. -/
def Fval.add : Fval → Fval → Fval
  | .nan, _ => .nan
  | _, .nan => .nan
  | .inf, .ninf => .nan
  | .ninf, .inf => .nan
  | .inf, _ => .inf
  | _, .inf => .inf
  | .ninf, _ => .ninf
  | _, .ninf => .ninf
  | .num a, .num b => .num (a + b)

/-- IEEE subtraction. -/
def Fval.sub (a b : Fval) : Fval := Fval.add a (Fval.neg b)

/-- IEEE multiplication: NaN propagates, infinity times zero is NaN. -/
def Fval.mul : Fval → Fval → Fval
  | .nan, _ => .nan
  | _, .nan => .nan
  | .num a, .num b => .num (a * b)
  | .inf, .num b => if b = 0 then .nan else if 0 < b then .inf else .ninf
  | .num a, .inf => if a = 0 then .nan else if 0 < a then .inf else .ninf
  | .ninf, .num b => if b = 0 then .nan else if 0 < b then .ninf else .inf
  | .num a, .ninf => if a = 0 then .nan else if 0 < a then .ninf else .inf
  | .inf, .inf => .inf
  | .inf, .ninf => .ninf
  | .ninf, .inf => .ninf
  | .ninf, .ninf => .inf

/-- IEEE division, the semantics pandas applies on `opens / sends`:
a finite value divided by zero is signed infinity, zero by zero is NaN. -/
def Fval.div : Fval → Fval → Fval
  | .nan, _ => .nan
  | _, .nan => .nan
  | .num a, .num b =>
      if b = 0 then (if a = 0 then .nan else if 0 < a then .inf else .ninf)
      else .num (a / b)
  | .num _, .inf => .num 0
  | .num _, .ninf => .num 0
  | .inf, .num b => if 0 ≤ b then .inf else .ninf
  | .ninf, .num b => if 0 ≤ b then .ninf else .inf
  | .inf, _ => .nan
  | .ninf, _ => .nan

/-- IEEE strict comparison: any comparison with NaN is false. -/
def Fval.lt : Fval → Fval → Bool
  | .num a, .num b => decide (a < b)
  | .nan, _ => false
  | _, .nan => false
  | .inf, _ => false
  | .ninf, .ninf => false
  | .ninf, _ => true
  | .num _, .inf => true
  | .num _, .ninf => false

/-- Sum of a list of values, as numpy computes it (zero for the empty list). -/
def fsum (xs : List Fval) : Fval := xs.foldl Fval.add (Fval.num 0)

/-- numpy mean: sum divided by length; the empty list gives 0/0 = NaN. -/
def fmeanAll (xs : List Fval) : Fval := Fval.div (fsum xs) (Fval.num xs.length)

/-- pandas `Series.mean()` with its default `skipna=True`: NaN entries are
dropped, an all-NaN (or empty) column gives NaN; infinities participate. -/
def fmeanSkip (xs : List Fval) : Fval :=
  let ys := xs.filter (fun x => !x.isNan)
  if ys.isEmpty then Fval.nan else Fval.div (fsum ys) (Fval.num ys.length)

/-- numpy sample variance with `ddof = 1`: the squared deviations summed and
divided by `max (n - 1) 0` (Nat subtraction already clamps), so that a
sample of size 0 or 1 gives 0/0 = NaN. -/
def fvarS (xs : List Fval) : Fval :=
  let m := fmeanAll xs
  Fval.div (fsum (xs.map (fun x => Fval.mul (Fval.sub x m) (Fval.sub x m))))
    (Fval.num (xs.length - 1 : ℕ))

/-! ## Welch t-test (scipy.stats.ttest_ind, equal_var=False, nan_policy=omit)

The p-value in the non-degenerate branch is `sf2 df tsq`, where `sf2` is the
two-sided survival function of the t distribution as a function of the
degrees of freedom and of the squared t statistic.  `sf2` is transcendental,
so the embedding takes it as a parameter; every degenerate branch
(NaN propagation, zero pooled variance, infinite statistic) is computed
exactly and never consults `sf2`.  -/

/-- Drop NaN entries from a sample, as scipy does under nan_policy=omit. -/
def omitNan (xs : List Fval) : List Fval := xs.filter (fun x => !x.isNan)

/-- Welch–Satterthwaite degrees of freedom, written on the squared t scale:
`q1 = v1/n1`, `q2 = v2/n2`. -/
def welchDf (q1 q2 : ℚ) (n1 n2 : ℕ) : ℚ :=
  (q1 + q2) * (q1 + q2) / (q1 * q1 / ((n1 : ℚ) - 1) + q2 * q2 / ((n2 : ℚ) - 1))

/-- The p-value of scipy ttest_ind with equal_var False and nan_policy
omit.  NaNs are omitted from each sample; means and `ddof=1`
variances follow numpy (so a sample of size < 2 yields NaN variance); the
pooled variance `s = v1/n1 + v2/n2` and mean difference `d` classify the
statistic: any NaN propagates to a NaN p-value, `s = 0` with `d ≠ 0` gives
`t = ±∞` hence p-value 0 (scipy replaces the then-undefined Welch df by 1,
and `sf(±∞) = 0` regardless), `s = 0 = d` gives NaN, and otherwise the
p-value is `sf2` at the Welch df and squared statistic. -/
def ttestPvalue (sf2 : ℚ → ℚ → ℚ) (a b : List Fval) : Fval :=
  let a' := omitNan a
  let b' := omitNan b
  let vn1 := Fval.div (fvarS a') (Fval.num a'.length)
  let vn2 := Fval.div (fvarS b') (Fval.num b'.length)
  let s := Fval.add vn1 vn2
  let d := Fval.sub (fmeanAll a') (fmeanAll b')
  match s, d with
  | Fval.num sq, Fval.num dq =>
      if sq < 0 then Fval.nan
      else if sq = 0 then (if dq = 0 then Fval.nan else Fval.num 0)
      else
        match vn1, vn2 with
        | Fval.num q1, Fval.num q2 =>
            Fval.num (sf2 (welchDf q1 q2 a'.length b'.length) (dq * dq / sq))
        | _, _ => Fval.nan
  | Fval.num sq, Fval.inf => if sq < 0 then Fval.nan else Fval.num 0
  | Fval.num sq, Fval.ninf => if sq < 0 then Fval.nan else Fval.num 0
  | Fval.inf, Fval.num _ => Fval.num 1
  | _, _ => Fval.nan

/-- Significance rendering from the source: the flag is ✅ when
pvalue < 0.05 and ❌ otherwise; an IEEE comparison, so NaN gives ❌. -/
def sigFlag (p : Fval) : String :=
  if Fval.lt p (Fval.num (1 / 20)) then "✅" else "❌"

/-! ## Typed rows and the pipeline stages -/

/-- One row of the uploaded CSV, with the columns the program reads:
`Day`, `Entity`, `Slot`, `Variant`, and the six count columns
(Direct Opens / Total Opens / Sends, for Android Push and iOS Push). -/
structure Row where
  day : String
  entity : String
  slot : String
  variant : String
  directA : Fval
  totalA : Fval
  sendsA : Fval
  directI : Fval
  totalI : Fval
  sendsI : Fval
deriving DecidableEq, Repr

/-- Line 27 of the source, the pandas replace on the Variant column mapping
VAR1 to PR and VAR2 to Social: exact matches are remapped, any other value
is left unchanged. -/
def replaceVariant (v : String) : String :=
  if v = "VAR1" then "PR" else if v = "VAR2" then "Social" else v

/-- Apply the variant remap to a row. -/
def applyReplace (r : Row) : Row := { r with variant := replaceVariant r.variant }

/-- A row extended with the four derived open-rate columns. -/
structure RateRow extends Row where
  aDor : Fval
  aTor : Fval
  iDor : Fval
  iTor : Fval
deriving DecidableEq, Repr

/-- Lines 30–33 of the source: the four rate columns, each a columnwise
pandas division of an opens column by a sends column. -/
def addRates (r : Row) : RateRow :=
  { r with
    aDor := Fval.div r.directA r.sendsA
    aTor := Fval.div r.totalA r.sendsA
    iDor := Fval.div r.directI r.sendsI
    iTor := Fval.div r.totalI r.sendsI }

/-- Line 42 of the source: keep the rows whose Day, Entity and Slot all
belong to the respective user-selected value sets. -/
def filterStage (dsel esel ssel : List String) (rows : List RateRow) : List RateRow :=
  rows.filter (fun r =>
    decide (r.day ∈ dsel) && decide (r.entity ∈ esel) && decide (r.slot ∈ ssel))

/-- A grouping column, one of the three offered by the UI. -/
inductive GCol where
  | day
  | entity
  | slot
deriving DecidableEq, Repr

/-- The display name of a grouping column (the dict key used in result rows). -/
def gname : GCol → String
  | .day => "Day"
  | .entity => "Entity"
  | .slot => "Slot"

/-- The value a row takes at a grouping column. -/
def colVal (g : GCol) (r : RateRow) : String :=
  match g with
  | .day => r.day
  | .entity => r.entity
  | .slot => r.slot

/-- The group key of a row for a chosen list of grouping columns. -/
def keyOf (gcols : List GCol) (r : RateRow) : List String :=
  gcols.map (fun g => colVal g r)

/-- The distinct group keys in the order `pandas.groupby` iterates them:
sorted (the `sort=True` default) lexicographically. -/
def sortedKeys (gcols : List GCol) (rows : List RateRow) : List (List String) :=
  List.insertionSort (· ≤ ·) ((rows.map (keyOf gcols)).dedup)

/-- The member rows of a group, in their original order. -/
def groupOf (gcols : List GCol) (rows : List RateRow) (k : List String) : List RateRow :=
  rows.filter (fun r => decide (keyOf gcols r = k))

/-- A platform, as offered by the platform multiselect. -/
inductive Plat where
  | android
  | ios
deriving DecidableEq, Repr

/-- The display name of a platform. -/
def platName : Plat → String
  | .android => "Android"
  | .ios => "iOS"

/-- The direct-open-rate column selected for a platform (lines 78–81). -/
def dorOf : Plat → RateRow → Fval
  | .android, r => r.aDor
  | .ios, r => r.iDor

/-- The total-open-rate column selected for a platform (lines 78–81). -/
def torOf : Plat → RateRow → Fval
  | .android, r => r.aTor
  | .ios, r => r.iTor

/-! ## Result rows

The source appends a Python dict per emitted (group, platform) pair; dicts
preserve insertion order, so a result row is embedded as an ordered
association list of column name to cell. -/

/-- A cell of a result row: a string (labels, flags) or a numeric value. -/
inductive Cell where
  | s : String → Cell
  | n : Fval → Cell
deriving DecidableEq, Repr

/-- One ComparisonResult row, as the ordered dict the source builds. -/
abbrev ResRow := List (String × Cell)

/-- Lines 83–101 of the source, for one (group, platform) pair: partition the
group by Variant into PR and Social rows; only if both partitions are
non-empty, run the two t-tests and build the result dict in its insertion
order. -/
def emitRow (sf2 : ℚ → ℚ → ℚ) (gcols : List GCol) (p : Plat) (k : List String)
    (g : List RateRow) : Option ResRow :=
  let pr := g.filter (fun r => decide (r.variant = "PR"))
  let social := g.filter (fun r => decide (r.variant = "Social"))
  if 0 < pr.length ∧ 0 < social.length then
    let dorP := ttestPvalue sf2 (pr.map (dorOf p)) (social.map (dorOf p))
    let torP := ttestPvalue sf2 (pr.map (torOf p)) (social.map (torOf p))
    some ((gcols.map gname).zip (k.map Cell.s) ++
      [("Platform", Cell.s (platName p)),
       ("PR_DOR", Cell.n (fmeanSkip (pr.map (dorOf p)))),
       ("Social_DOR", Cell.n (fmeanSkip (social.map (dorOf p)))),
       ("PR_TOR", Cell.n (fmeanSkip (pr.map (torOf p)))),
       ("Social_TOR", Cell.n (fmeanSkip (social.map (torOf p)))),
       ("DOR_pvalue", Cell.n dorP),
       ("TOR_pvalue", Cell.n torP),
       ("DOR_Significant", Cell.s (sigFlag dorP)),
       ("TOR_Significant", Cell.s (sigFlag torP))])
  else none

/-- Lines 73–101 of the source: iterate the groups in groupby order, and the
platforms in the order of the platform selection, appending each emitted
result row to the accumulator list. -/
def buildResults (sf2 : ℚ → ℚ → ℚ) (gcols : List GCol) (plats : List Plat)
    (rows : List RateRow) : List ResRow :=
  (sortedKeys gcols rows).foldl
    (fun acc k =>
      plats.foldl
        (fun acc2 p =>
          match emitRow sf2 gcols p k (groupOf gcols rows k) with
          | some r => acc2 ++ [r]
          | none => acc2)
        acc)
    []

/-- The whole per-upload computation on typed rows: variant remap, rate
columns, Day/Entity/Slot filtering, then (guarded by `if group_cols:`)
the grouped comparisons. -/
def pipeline (sf2 : ℚ → ℚ → ℚ) (input : List Row) (dsel esel ssel : List String)
    (gcols : List GCol) (plats : List Plat) : List ResRow :=
  let rated := (input.map applyReplace).map addRates
  let filtered := filterStage dsel esel ssel rated
  if gcols.isEmpty then [] else buildResults sf2 gcols plats filtered

/-! ## The dynamic frame and the rate-computation stage

The source looks columns up by string name; a missing column
raises `KeyError(name)` at its first use, after any assignments that only
used earlier columns have already mutated the frame.  The frame is an
ordered association list of column name to column; the error value carries
the missing name together with the frame state at the failure. -/

/-- A dataframe column. -/
abbrev Col := List Cell

/-- A dataframe: ordered association list of column name to column. -/
abbrev Frame := List (String × Col)

/-- Column lookup `df[c]`: the first column named `c`, or a KeyError
carrying `c`. -/
def flookup (f : Frame) (c : String) : Except String Col :=
  match f.find? (fun p => decide (p.1 = c)) with
  | some p => Except.ok p.2
  | none => Except.error c

/-- Columnwise pandas division of two cells. -/
def cdiv : Cell → Cell → Cell
  | Cell.n a, Cell.n b => Cell.n (Fval.div a b)
  | _, _ => Cell.n Fval.nan

/-- Column assignment `df[c] = col`: replace the column if the name exists,
else append it. -/
def setCol (f : Frame) (c : String) (col : Col) : Frame :=
  if f.any (fun p => decide (p.1 = c)) then
    f.map (fun p => if p.1 = c then (c, col) else p)
  else f ++ [(c, col)]

/-- One source line `df[newC] = df[opensC] / df[sendsC]`: the two lookups in
evaluation order, then the columnwise division and the assignment.  On a
missing column the error names it and carries the frame at that point. -/
def rateStep (f : Frame) (opensC sendsC newC : String) :
    Except (String × Frame) Frame :=
  match flookup f opensC with
  | Except.error c => Except.error (c, f)
  | Except.ok a =>
    match flookup f sendsC with
    | Except.error c => Except.error (c, f)
    | Except.ok b => Except.ok (setCol f newC (List.zipWith cdiv a b))

/-- Lines 30–33 of the source in order: the four rate-column assignments. -/
def computeRatesF (f : Frame) : Except (String × Frame) Frame :=
  match rateStep f "Direct Opens (Android Push)" "Sends (Android Push)"
      "Android_Direct_Open_Rate" with
  | Except.error e => Except.error e
  | Except.ok f1 =>
    match rateStep f1 "Total Opens (Android Push)" "Sends (Android Push)"
        "Android_Total_Open_Rate" with
    | Except.error e => Except.error e
    | Except.ok f2 =>
      match rateStep f2 "Direct Opens (iOS Push)" "Sends (iOS Push)"
          "iOS_Direct_Open_Rate" with
      | Except.error e => Except.error e
      | Except.ok f3 =>
        rateStep f3 "Total Opens (iOS Push)" "Sends (iOS Push)"
          "iOS_Total_Open_Rate"

/-- Whether a column name is present in a frame. -/
def hasCol (f : Frame) (c : String) : Bool := f.any (fun p => decide (p.1 = c))

/-- The required count columns, in the order the source first uses them. -/
def requiredCountCols : List String :=
  ["Direct Opens (Android Push)", "Sends (Android Push)",
   "Total Opens (Android Push)",
   "Direct Opens (iOS Push)", "Sends (iOS Push)",
   "Total Opens (iOS Push)"]

/-! ## Concrete inputs used by counterexamples and witnesses -/

/-- A placeholder survival function for concrete runs; the degenerate
branches under scrutiny never consult it, and `1/2` is distinguishable from
both of the values (`0`, NaN) those branches produce. -/
def sfHalf : ℚ → ℚ → ℚ := fun _ _ => 1 / 2

/-- The PR example row of spec section 8 (40 direct opens of 100 sends). -/
def rowPR : Row :=
  ⟨"Mon", "A", "S1", "VAR1", Fval.num 40, Fval.num 50, Fval.num 100,
    Fval.num 10, Fval.num 20, Fval.num 100⟩

/-- The Social example row of spec section 8 (30 direct opens of 100 sends). -/
def rowSoc : Row := { rowPR with variant := "VAR2", directA := Fval.num 30 }

/-- The row `rowPR` after variant remap and rate computation. -/
def rrPR : RateRow :=
  ⟨⟨"Mon", "A", "S1", "PR", Fval.num 40, Fval.num 50, Fval.num 100,
    Fval.num 10, Fval.num 20, Fval.num 100⟩,
    Fval.num (2 / 5), Fval.num (1 / 2), Fval.num (1 / 10), Fval.num (1 / 5)⟩

/-- The row `rowSoc` after variant remap and rate computation. -/
def rrSoc : RateRow :=
  ⟨⟨"Mon", "A", "S1", "Social", Fval.num 30, Fval.num 50, Fval.num 100,
    Fval.num 10, Fval.num 20, Fval.num 100⟩,
    Fval.num (3 / 10), Fval.num (1 / 2), Fval.num (1 / 10), Fval.num (1 / 5)⟩

/-- The result row the program emits for the single-row-per-variant example:
both p-values NaN (samples of size one), both flags `❌`. -/
def resRow1 : ResRow :=
  [("Day", Cell.s "Mon"), ("Platform", Cell.s "Android"),
   ("PR_DOR", Cell.n (Fval.num (2 / 5))), ("Social_DOR", Cell.n (Fval.num (3 / 10))),
   ("PR_TOR", Cell.n (Fval.num (1 / 2))), ("Social_TOR", Cell.n (Fval.num (1 / 2))),
   ("DOR_pvalue", Cell.n Fval.nan), ("TOR_pvalue", Cell.n Fval.nan),
   ("DOR_Significant", Cell.s "❌"), ("TOR_Significant", Cell.s "❌")]

/-- The result row the program emits for the duplicated example rows
(two identical PR rows, two identical Social rows): the zero-variance
DOR samples with different means give p-value 0, flagged significant. -/
def resRow2 : ResRow :=
  [("Day", Cell.s "Mon"), ("Platform", Cell.s "Android"),
   ("PR_DOR", Cell.n (Fval.num (2 / 5))), ("Social_DOR", Cell.n (Fval.num (3 / 10))),
   ("PR_TOR", Cell.n (Fval.num (1 / 2))), ("Social_TOR", Cell.n (Fval.num (1 / 2))),
   ("DOR_pvalue", Cell.n (Fval.num 0)), ("TOR_pvalue", Cell.n Fval.nan),
   ("DOR_Significant", Cell.s "✅"), ("TOR_Significant", Cell.s "❌")]

/-- The column names of every emitted result row after the group columns. -/
def resCols : List String :=
  ["Platform", "PR_DOR", "Social_DOR", "PR_TOR", "Social_TOR",
   "DOR_pvalue", "TOR_pvalue", "DOR_Significant", "TOR_Significant"]

/-- Observation of the rate stage used in statements: on failure, the
missing-column name together with the column names present at the failure. -/
def errInfo : Except (String × Frame) Frame → Option (String × List String)
  | Except.error (c, fe) => some (c, fe.map Prod.fst)
  | Except.ok _ => none

/-- A frame holding the Android count columns (and `Day`) for one row, but
none of the iOS columns. -/
def frameA : Frame :=
  [("Day", [Cell.s "Mon"]),
   ("Direct Opens (Android Push)", [Cell.n (Fval.num 40)]),
   ("Total Opens (Android Push)", [Cell.n (Fval.num 50)]),
   ("Sends (Android Push)", [Cell.n (Fval.num 100)])]

/-- A frame holding all six required count columns for one row. -/
def frameFull : Frame :=
  [("Day", [Cell.s "Mon"]),
   ("Direct Opens (Android Push)", [Cell.n (Fval.num 40)]),
   ("Total Opens (Android Push)", [Cell.n (Fval.num 50)]),
   ("Sends (Android Push)", [Cell.n (Fval.num 100)]),
   ("Direct Opens (iOS Push)", [Cell.n (Fval.num 10)]),
   ("Total Opens (iOS Push)", [Cell.n (Fval.num 20)]),
   ("Sends (iOS Push)", [Cell.n (Fval.num 100)])]

/-! ## Concrete evaluation of the two example runs -/

theorem run1_rated : ([rowPR, rowSoc].map applyReplace).map addRates = [rrPR, rrSoc] := by
  norm_num [applyReplace, replaceVariant, addRates, rowPR, rowSoc, rrPR, rrSoc, Fval.div]
  decide

theorem run1_filtered :
    filterStage ["Mon"] ["A"] ["S1"] [rrPR, rrSoc] = [rrPR, rrSoc] := by
  norm_num [filterStage, rrPR, rrSoc]

theorem run1_keys : sortedKeys [GCol.day] [rrPR, rrSoc] = [["Mon"]] := by
  norm_num [sortedKeys, keyOf, colVal, rrPR, rrSoc, List.insertionSort,
    List.orderedInsert, List.dedup]

theorem run1_group : groupOf [GCol.day] [rrPR, rrSoc] ["Mon"] = [rrPR, rrSoc] := by
  norm_num [groupOf, keyOf, colVal, rrPR, rrSoc]

theorem run1_prPart :
    [rrPR, rrSoc].filter (fun r => decide (r.variant = "PR")) = [rrPR] := by
  simp [rrPR, rrSoc, List.filter]

theorem run1_socPart :
    [rrPR, rrSoc].filter (fun r => decide (r.variant = "Social")) = [rrSoc] := by
  simp [rrPR, rrSoc, List.filter]

theorem ttest_single_single :
    ttestPvalue sfHalf [Fval.num (2 / 5)] [Fval.num (3 / 10)] = Fval.nan := by
  norm_num [ttestPvalue, omitNan, fvarS, fmeanAll, fsum, sfHalf, welchDf,
    Fval.add, Fval.sub, Fval.neg, Fval.mul, Fval.div, Fval.isNan]

theorem ttest_single_single_eq :
    ttestPvalue sfHalf [Fval.num (1 / 2)] [Fval.num (1 / 2)] = Fval.nan := by
  norm_num [ttestPvalue, omitNan, fvarS, fmeanAll, fsum, sfHalf, welchDf,
    Fval.add, Fval.sub, Fval.neg, Fval.mul, Fval.div, Fval.isNan]

theorem mean_single_pr : fmeanSkip [Fval.num (2 / 5)] = Fval.num (2 / 5) := by
  norm_num [fmeanSkip, fsum, Fval.add, Fval.div, Fval.isNan]

theorem mean_single_soc : fmeanSkip [Fval.num (3 / 10)] = Fval.num (3 / 10) := by
  norm_num [fmeanSkip, fsum, Fval.add, Fval.div, Fval.isNan]

theorem mean_single_half : fmeanSkip [Fval.num (1 / 2)] = Fval.num (1 / 2) := by
  norm_num [fmeanSkip, fsum, Fval.add, Fval.div, Fval.isNan]

theorem sigFlag_nan : sigFlag Fval.nan = "❌" := rfl

theorem sigFlag_zero : sigFlag (Fval.num 0) = "✅" := by
  norm_num [sigFlag, Fval.lt]

theorem run1_emit :
    emitRow sfHalf [GCol.day] Plat.android ["Mon"] [rrPR, rrSoc] = some resRow1 := by
  simp only [emitRow, run1_prPart, run1_socPart]
  simp only [List.map_cons, List.map_nil, dorOf, torOf, rrPR, rrSoc]
  simp only [ttest_single_single, ttest_single_single_eq, mean_single_pr,
    mean_single_soc, mean_single_half, sigFlag_nan]
  norm_num [resRow1, gname, platName]

theorem run1_build :
    buildResults sfHalf [GCol.day] [Plat.android] [rrPR, rrSoc] = [resRow1] := by
  simp only [buildResults, run1_keys, List.foldl_cons, List.foldl_nil,
    run1_group, run1_emit, List.nil_append]

theorem run1_pipeline :
    pipeline sfHalf [rowPR, rowSoc] ["Mon"] ["A"] ["S1"] [GCol.day] [Plat.android] =
      [resRow1] := by
  simp only [pipeline, run1_rated, run1_filtered, List.isEmpty_cons,
    Bool.false_eq_true, if_false, run1_build]

theorem run2_rated :
    ([rowPR, rowPR, rowSoc, rowSoc].map applyReplace).map addRates =
      [rrPR, rrPR, rrSoc, rrSoc] := by
  norm_num [applyReplace, replaceVariant, addRates, rowPR, rowSoc, rrPR, rrSoc, Fval.div]
  decide

theorem run2_keys : sortedKeys [GCol.day] [rrPR, rrPR, rrSoc, rrSoc] = [["Mon"]] := by
  norm_num [sortedKeys, keyOf, colVal, rrPR, rrSoc, List.insertionSort,
    List.orderedInsert, List.dedup]

theorem run2_group :
    groupOf [GCol.day] [rrPR, rrPR, rrSoc, rrSoc] ["Mon"] =
      [rrPR, rrPR, rrSoc, rrSoc] := by
  norm_num [groupOf, keyOf, colVal, rrPR, rrSoc]

theorem run2_prPart :
    [rrPR, rrPR, rrSoc, rrSoc].filter (fun r => decide (r.variant = "PR")) =
      [rrPR, rrPR] := by
  simp [rrPR, rrSoc, List.filter]

theorem run2_socPart :
    [rrPR, rrPR, rrSoc, rrSoc].filter (fun r => decide (r.variant = "Social")) =
      [rrSoc, rrSoc] := by
  simp [rrPR, rrSoc, List.filter]

theorem ttest_pair_zero :
    ttestPvalue sfHalf [Fval.num (2 / 5), Fval.num (2 / 5)]
      [Fval.num (3 / 10), Fval.num (3 / 10)] = Fval.num 0 := by
  norm_num [ttestPvalue, omitNan, fvarS, fmeanAll, fsum, sfHalf, welchDf,
    Fval.add, Fval.sub, Fval.neg, Fval.mul, Fval.div, Fval.isNan]

theorem ttest_pair_nan :
    ttestPvalue sfHalf [Fval.num (1 / 2), Fval.num (1 / 2)]
      [Fval.num (1 / 2), Fval.num (1 / 2)] = Fval.nan := by
  norm_num [ttestPvalue, omitNan, fvarS, fmeanAll, fsum, sfHalf, welchDf,
    Fval.add, Fval.sub, Fval.neg, Fval.mul, Fval.div, Fval.isNan]

theorem mean_pair_pr :
    fmeanSkip [Fval.num (2 / 5), Fval.num (2 / 5)] = Fval.num (2 / 5) := by
  norm_num [fmeanSkip, fsum, Fval.add, Fval.div, Fval.isNan]

theorem mean_pair_soc :
    fmeanSkip [Fval.num (3 / 10), Fval.num (3 / 10)] = Fval.num (3 / 10) := by
  norm_num [fmeanSkip, fsum, Fval.add, Fval.div, Fval.isNan]

theorem mean_pair_half :
    fmeanSkip [Fval.num (1 / 2), Fval.num (1 / 2)] = Fval.num (1 / 2) := by
  norm_num [fmeanSkip, fsum, Fval.add, Fval.div, Fval.isNan]

theorem run2_emit :
    emitRow sfHalf [GCol.day] Plat.android ["Mon"] [rrPR, rrPR, rrSoc, rrSoc] =
      some resRow2 := by
  simp only [emitRow, run2_prPart, run2_socPart]
  simp only [List.map_cons, List.map_nil, dorOf, torOf, rrPR, rrSoc]
  simp only [ttest_pair_zero, ttest_pair_nan, mean_pair_pr, mean_pair_soc,
    mean_pair_half, sigFlag_nan, sigFlag_zero]
  norm_num [resRow2, gname, platName]

theorem run2_build :
    buildResults sfHalf [GCol.day] [Plat.android] [rrPR, rrPR, rrSoc, rrSoc] =
      [resRow2] := by
  simp only [buildResults, run2_keys, List.foldl_cons, List.foldl_nil,
    run2_group, run2_emit, List.nil_append]

/-! ## General lemmas about the embedded operations -/

theorem Fval.add_nan_left (x : Fval) : Fval.add Fval.nan x = Fval.nan := by
  cases x <;> rfl

theorem Fval.add_nan_right (x : Fval) : Fval.add x Fval.nan = Fval.nan := by
  cases x <;> rfl

theorem Fval.div_nan_left (x : Fval) : Fval.div Fval.nan x = Fval.nan := by
  cases x <;> rfl

/-- A sample of fewer than two values has NaN `ddof=1` variance. -/
theorem fvarS_short (xs : List Fval) (h : xs.length < 2) : fvarS xs = Fval.nan := by
  match xs, h with
  | [], _ => norm_num [fvarS, fmeanAll, fsum, Fval.div]
  | [x], _ =>
      cases x <;>
        norm_num [fvarS, fmeanAll, fsum, Fval.add, Fval.sub, Fval.neg, Fval.mul, Fval.div]
  | x :: y :: t, h =>
      simp only [List.length_cons] at h
      omega

theorem foldl_append_filterMap (f : Plat → Option ResRow) :
    ∀ (ps : List Plat) (acc : List ResRow),
      ps.foldl (fun a p => match f p with | some r => a ++ [r] | none => a) acc =
        acc ++ ps.filterMap f := by
  intro ps
  induction ps with
  | nil => intro acc; simp
  | cons p ps ih =>
      intro acc
      cases hf : f p <;> simp [hf, ih, List.filterMap_cons]

/-- The append-in-a-loop accumulation of `buildResults` equals the group-keys
iteration composed with the platform iteration. -/
theorem buildResults_eq_flatMap (sf2 : ℚ → ℚ → ℚ) (gcols : List GCol)
    (plats : List Plat) (rows : List RateRow) :
    buildResults sf2 gcols plats rows =
      (sortedKeys gcols rows).flatMap (fun k =>
        plats.filterMap (fun p => emitRow sf2 gcols p k (groupOf gcols rows k))) := by
  have aux : ∀ (ks : List (List String)) (acc : List ResRow),
      ks.foldl (fun acc k =>
        plats.foldl (fun acc2 p =>
          match emitRow sf2 gcols p k (groupOf gcols rows k) with
          | some r => acc2 ++ [r]
          | none => acc2) acc) acc =
      acc ++ ks.flatMap (fun k =>
        plats.filterMap (fun p => emitRow sf2 gcols p k (groupOf gcols rows k))) := by
    intro ks
    induction ks with
    | nil => intro acc; simp
    | cons k ks ih =>
        intro acc
        rw [List.foldl_cons, foldl_append_filterMap, ih]
        simp [List.flatMap_cons]
  simpa [buildResults] using aux (sortedKeys gcols rows) []

/-- Membership in the emitted results. -/
theorem mem_buildResults {sf2 : ℚ → ℚ → ℚ} {gcols : List GCol} {plats : List Plat}
    {rows : List RateRow} {row : ResRow} :
    row ∈ buildResults sf2 gcols plats rows ↔
      ∃ k, k ∈ sortedKeys gcols rows ∧ ∃ p, p ∈ plats ∧
        emitRow sf2 gcols p k (groupOf gcols rows k) = some row := by
  rw [buildResults_eq_flatMap]
  simp only [List.mem_flatMap, List.mem_filterMap]

/-- The groupby iteration order is strictly increasing in the key order. -/
theorem sortedKeys_pairwise_lt (gcols : List GCol) (rows : List RateRow) :
    List.Pairwise (· < ·) (sortedKeys gcols rows) := by
  have hs : List.Sorted (· ≤ ·) (sortedKeys gcols rows) :=
    List.sorted_insertionSort _ _
  have hn : (sortedKeys gcols rows).Nodup := by
    unfold sortedKeys
    exact ((List.perm_insertionSort _ _).nodup_iff).mpr (List.nodup_dedup _)
  exact (hs.and hn).imp (fun hab => lt_of_le_of_ne hab.1 hab.2)

/-- Every group key has one entry per grouping column. -/
theorem mem_sortedKeys_length {gcols : List GCol} {rows : List RateRow}
    {k : List String} (h : k ∈ sortedKeys gcols rows) : k.length = gcols.length := by
  unfold sortedKeys at h
  have h1 : k ∈ (rows.map (keyOf gcols)).dedup :=
    (List.perm_insertionSort (· ≤ ·) _).mem_iff.mp h
  have h2 : k ∈ rows.map (keyOf gcols) := List.mem_dedup.mp h1
  obtain ⟨r, _, rfl⟩ := List.mem_map.mp h2
  simp [keyOf]

/-- An empty PR or Social partition suppresses the result row. -/
theorem emitRow_none_of_empty {sf2 : ℚ → ℚ → ℚ} {gcols : List GCol} {p : Plat}
    {k : List String} {g : List RateRow}
    (h : g.filter (fun r => decide (r.variant = "PR")) = [] ∨
         g.filter (fun r => decide (r.variant = "Social")) = []) :
    emitRow sf2 gcols p k g = none := by
  simp only [emitRow]
  rcases h with h | h <;> rw [h] <;> simp

/-- An emitted row comes from non-empty PR and Social partitions. -/
theorem emitRow_some_guard {sf2 : ℚ → ℚ → ℚ} {gcols : List GCol} {p : Plat}
    {k : List String} {g : List RateRow} {row : ResRow}
    (h : emitRow sf2 gcols p k g = some row) :
    g.filter (fun r => decide (r.variant = "PR")) ≠ [] ∧
    g.filter (fun r => decide (r.variant = "Social")) ≠ [] := by
  simp only [emitRow] at h
  split at h
  · rename_i hg
    exact ⟨List.ne_nil_of_length_pos hg.1, List.ne_nil_of_length_pos hg.2⟩
  · exact Option.noConfusion h

/-- The exact shape of an emitted result row: the zipped group-key fields
followed by the nine fixed fields, with each significance flag rendered
from the same p-value stored two fields earlier. -/
theorem emitRow_some_shape {sf2 : ℚ → ℚ → ℚ} {gcols : List GCol} {p : Plat}
    {k : List String} {g : List RateRow} {row : ResRow}
    (h : emitRow sf2 gcols p k g = some row) :
    ∃ m1 m2 m3 m4 dorP torP,
      row = (gcols.map gname).zip (k.map Cell.s) ++
        [("Platform", Cell.s (platName p)), ("PR_DOR", Cell.n m1),
         ("Social_DOR", Cell.n m2), ("PR_TOR", Cell.n m3), ("Social_TOR", Cell.n m4),
         ("DOR_pvalue", Cell.n dorP), ("TOR_pvalue", Cell.n torP),
         ("DOR_Significant", Cell.s (sigFlag dorP)),
         ("TOR_Significant", Cell.s (sigFlag torP))] := by
  simp only [emitRow] at h
  split at h
  · exact ⟨_, _, _, _, _, _, (Option.some.inj h).symm⟩
  · exact Option.noConfusion h

/-- Looking a name up past an association-list segment that does not bind it. -/
theorem lookup_append_of_ne {l1 l2 : List (String × Cell)} {c : String}
    (h : ∀ x ∈ l1, x.1 ≠ c) : (l1 ++ l2).lookup c = l2.lookup c := by
  induction l1 with
  | nil => rfl
  | cons x l1 ih =>
      rcases x with ⟨x1, x2⟩
      have hx : (c == x1) = false :=
        beq_eq_false_iff_ne.mpr (Ne.symm (h (x1, x2) (List.mem_cons_self _ _)))
      rw [List.cons_append, List.lookup_cons, hx]
      exact ih (fun y hy => h y (List.mem_cons_of_mem _ hy))

/-- The first components of the zipped group-key fields are column names. -/
theorem zip_fst_gname {gcols : List GCol} {k : List String} {c : String}
    (hc : ∀ g : GCol, gname g ≠ c) :
    ∀ x ∈ (gcols.map gname).zip (k.map Cell.s), x.1 ≠ c := by
  intro x hx
  rcases x with ⟨x1, x2⟩
  have h1 : x1 ∈ gcols.map gname := (List.of_mem_zip hx).1
  obtain ⟨g, _, rfl⟩ := List.mem_map.mp h1
  exact hc g

/-- C4 (amended): with fewer than two non-null observations in either sample
after null-drop, the Welch t-test p-value is NaN, for every survival
function — the degenerate branch never consults it; the (total) embedding
returns a value rather than raising.  (The zero-variance clause of the claim
fails: see the counterexample theorem.) -/
theorem c4_small_sample_pvalue_nan (sf2 : ℚ → ℚ → ℚ) (a b : List Fval)
    (h : (omitNan a).length < 2 ∨ (omitNan b).length < 2) :
    ttestPvalue sf2 a b = Fval.nan := by
  have hs : Fval.add (Fval.div (fvarS (omitNan a)) (Fval.num ((omitNan a).length : ℚ)))
      (Fval.div (fvarS (omitNan b)) (Fval.num ((omitNan b).length : ℚ))) = Fval.nan := by
    rcases h with h | h
    · rw [fvarS_short _ h, Fval.div_nan_left, Fval.add_nan_left]
    · rw [fvarS_short _ h, Fval.div_nan_left, Fval.add_nan_right]
  simp only [ttestPvalue]
  rw [hs]

/-! ## Lemmas about the dynamic rate-computation stage -/

theorem flookup_of_not_has {f : Frame} {c : String} (h : hasCol f c = false) :
    flookup f c = Except.error c := by
  unfold flookup
  have hn : f.find? (fun p => decide (p.1 = c)) = none := by
    rw [List.find?_eq_none]
    intro x hx
    unfold hasCol at h
    rw [List.any_eq_false] at h
    exact fun hpx => absurd hpx (by simpa using h x hx)
  rw [hn]

theorem flookup_has {f : Frame} {c : String} (h : hasCol f c = true) :
    ∃ col, flookup f c = Except.ok col := by
  unfold hasCol at h
  have hsome : (f.find? (fun p => decide (p.1 = c))).isSome := by
    rw [List.find?_isSome]
    simpa [List.any_eq_true] using h
  unfold flookup
  cases hf : f.find? (fun p => decide (p.1 = c)) with
  | none => rw [hf] at hsome; simp at hsome
  | some y => exact ⟨y.2, rfl⟩

theorem flookup_error_name {f : Frame} {c c' : String}
    (h : flookup f c = Except.error c') : c' = c ∧ hasCol f c = false := by
  by_cases hc : hasCol f c = true
  · obtain ⟨col, hcol⟩ := flookup_has hc
    rw [hcol] at h
    exact Except.noConfusion h
  · have hf := flookup_of_not_has (by simpa using hc)
    rw [hf] at h
    exact ⟨(Except.error.inj h).symm, by simpa using hc⟩

theorem hasCol_setCol_ne {f : Frame} {n : String} {col : Col} {c : String}
    (hc : c ≠ n) : hasCol (setCol f n col) c = hasCol f c := by
  unfold setCol hasCol
  split
  · rw [List.any_map]
    have hfun : ((fun p : String × Col => decide (p.1 = c)) ∘
        (fun p => if p.1 = n then (n, col) else p)) =
        (fun p : String × Col => decide (p.1 = c)) := by
      funext x
      by_cases hx : x.1 = n
      · simp [Function.comp, hx]
      · simp [Function.comp, hx]
    rw [hfun]
  · rw [List.any_append]
    simp [Ne.symm hc]

theorem rateStep_ok_of_has {f : Frame} {o s : String} (n : String)
    (ho : hasCol f o = true) (hs : hasCol f s = true) :
    ∃ f', rateStep f o s n = Except.ok f' ∧
      ∀ c, c ≠ n → hasCol f' c = hasCol f c := by
  obtain ⟨a, ha⟩ := flookup_has ho
  obtain ⟨b, hb⟩ := flookup_has hs
  refine ⟨setCol f n (List.zipWith cdiv a b), ?_, ?_⟩
  · unfold rateStep
    rw [ha, hb]
  · intro c hc
    exact hasCol_setCol_ne hc

theorem rateStep_error_cases {f : Frame} {o s n c : String} {fe : Frame}
    (h : rateStep f o s n = Except.error (c, fe)) :
    (c = o ∨ c = s) ∧ hasCol f c = false ∧ fe = f := by
  unfold rateStep at h
  cases h1 : flookup f o with
  | error c0 =>
      rw [h1] at h
      obtain ⟨hc0, hh⟩ := flookup_error_name h1
      have hp := Except.error.inj h
      have hcc : c0 = c := (Prod.mk.injEq _ _ _ _ ▸ hp).1
      have hfe : f = fe := (Prod.mk.injEq _ _ _ _ ▸ hp).2
      subst hcc
      exact ⟨Or.inl hc0, hc0 ▸ hh, hfe.symm⟩
  | ok a =>
      rw [h1] at h
      cases h2 : flookup f s with
      | error c0 =>
          rw [h2] at h
          obtain ⟨hc0, hh⟩ := flookup_error_name h2
          have hp := Except.error.inj h
          have hcc : c0 = c := (Prod.mk.injEq _ _ _ _ ▸ hp).1
          have hfe : f = fe := (Prod.mk.injEq _ _ _ _ ▸ hp).2
          subst hcc
          exact ⟨Or.inr hc0, hc0 ▸ hh, hfe.symm⟩
      | ok b =>
          rw [h2] at h
          exact Except.noConfusion h

theorem rateStep_ok_pres {f f' : Frame} {o s n : String}
    (h : rateStep f o s n = Except.ok f') :
    ∀ c, c ≠ n → hasCol f' c = hasCol f c := by
  unfold rateStep at h
  cases h1 : flookup f o with
  | error c0 => rw [h1] at h; exact Except.noConfusion h
  | ok a =>
      rw [h1] at h
      cases h2 : flookup f s with
      | error c0 => rw [h2] at h; exact Except.noConfusion h
      | ok b =>
          rw [h2] at h
          have := Except.ok.inj h
          intro c hc
          rw [← this]
          exact hasCol_setCol_ne hc

theorem req_ne_rateNames :
    ∀ c ∈ requiredCountCols, c ≠ "Android_Direct_Open_Rate" ∧
      c ≠ "Android_Total_Open_Rate" ∧ c ≠ "iOS_Direct_Open_Rate" ∧
      c ≠ "iOS_Total_Open_Rate" := by
  decide

/-- C7 (amended): with every required count column present the rate stage
succeeds, and when it fails the error names a column that is genuinely
absent and required; the failure occurs at the first use of the missing
column, not before all rate computation (see the counterexample theorem). -/
theorem c7_missing_column_spec (f : Frame) :
    ((∀ c, c ∈ requiredCountCols → hasCol f c = true) → (computeRatesF f).isOk = true)
    ∧ (∀ c fe, computeRatesF f = Except.error (c, fe) →
        c ∈ requiredCountCols ∧ hasCol f c = false) := by
  constructor
  · intro hall
    have hDA : hasCol f "Direct Opens (Android Push)" = true :=
      hall _ (by simp [requiredCountCols])
    have hSA : hasCol f "Sends (Android Push)" = true :=
      hall _ (by simp [requiredCountCols])
    have hTA : hasCol f "Total Opens (Android Push)" = true :=
      hall _ (by simp [requiredCountCols])
    have hDI : hasCol f "Direct Opens (iOS Push)" = true :=
      hall _ (by simp [requiredCountCols])
    have hSI : hasCol f "Sends (iOS Push)" = true :=
      hall _ (by simp [requiredCountCols])
    have hTI : hasCol f "Total Opens (iOS Push)" = true :=
      hall _ (by simp [requiredCountCols])
    obtain ⟨f1, e1, p1⟩ := rateStep_ok_of_has "Android_Direct_Open_Rate" hDA hSA
    have hTA1 : hasCol f1 "Total Opens (Android Push)" = true := by
      rw [p1 "Total Opens (Android Push)" (by decide)]; exact hTA
    have hSA1 : hasCol f1 "Sends (Android Push)" = true := by
      rw [p1 "Sends (Android Push)" (by decide)]; exact hSA
    obtain ⟨f2, e2, p2⟩ := rateStep_ok_of_has "Android_Total_Open_Rate" hTA1 hSA1
    have hDI2 : hasCol f2 "Direct Opens (iOS Push)" = true := by
      rw [p2 "Direct Opens (iOS Push)" (by decide),
        p1 "Direct Opens (iOS Push)" (by decide)]
      exact hDI
    have hSI2 : hasCol f2 "Sends (iOS Push)" = true := by
      rw [p2 "Sends (iOS Push)" (by decide), p1 "Sends (iOS Push)" (by decide)]
      exact hSI
    obtain ⟨f3, e3, p3⟩ := rateStep_ok_of_has "iOS_Direct_Open_Rate" hDI2 hSI2
    have hTI3 : hasCol f3 "Total Opens (iOS Push)" = true := by
      rw [p3 "Total Opens (iOS Push)" (by decide),
        p2 "Total Opens (iOS Push)" (by decide),
        p1 "Total Opens (iOS Push)" (by decide)]
      exact hTI
    have hSI3 : hasCol f3 "Sends (iOS Push)" = true := by
      rw [p3 "Sends (iOS Push)" (by decide), p2 "Sends (iOS Push)" (by decide),
        p1 "Sends (iOS Push)" (by decide)]
      exact hSI
    obtain ⟨f4, e4, _⟩ := rateStep_ok_of_has "iOS_Total_Open_Rate" hTI3 hSI3
    unfold computeRatesF
    simp only [e1, e2, e3, e4]
    rfl
  · intro c fe herr
    unfold computeRatesF at herr
    cases h1 : rateStep f "Direct Opens (Android Push)" "Sends (Android Push)"
        "Android_Direct_Open_Rate" with
    | error e =>
        simp only [h1] at herr
        rw [herr] at h1
        obtain ⟨hor, hh, _⟩ := rateStep_error_cases h1
        refine ⟨?_, hh⟩
        rcases hor with h | h <;> subst h <;> simp [requiredCountCols]
    | ok f1 =>
        simp only [h1] at herr
        cases h2 : rateStep f1 "Total Opens (Android Push)" "Sends (Android Push)"
            "Android_Total_Open_Rate" with
        | error e =>
            simp only [h2] at herr
            rw [herr] at h2
            obtain ⟨hor, hh, _⟩ := rateStep_error_cases h2
            have hcne : c ≠ "Android_Direct_Open_Rate" := by
              rcases hor with h | h <;> subst h <;> decide
            have hf : hasCol f c = false := by
              rw [← rateStep_ok_pres h1 c hcne]; exact hh
            refine ⟨?_, hf⟩
            rcases hor with h | h <;> subst h <;> simp [requiredCountCols]
        | ok f2 =>
            simp only [h2] at herr
            cases h3 : rateStep f2 "Direct Opens (iOS Push)" "Sends (iOS Push)"
                "iOS_Direct_Open_Rate" with
            | error e =>
                simp only [h3] at herr
                rw [herr] at h3
                obtain ⟨hor, hh, _⟩ := rateStep_error_cases h3
                have hcne1 : c ≠ "Android_Direct_Open_Rate" := by
                  rcases hor with h | h <;> subst h <;> decide
                have hcne2 : c ≠ "Android_Total_Open_Rate" := by
                  rcases hor with h | h <;> subst h <;> decide
                have hf : hasCol f c = false := by
                  rw [← rateStep_ok_pres h1 c hcne1, ← rateStep_ok_pres h2 c hcne2]
                  exact hh
                refine ⟨?_, hf⟩
                rcases hor with h | h <;> subst h <;> simp [requiredCountCols]
            | ok f3 =>
                simp only [h3] at herr
                obtain ⟨hor, hh, _⟩ := rateStep_error_cases herr
                have hcne1 : c ≠ "Android_Direct_Open_Rate" := by
                  rcases hor with h | h <;> subst h <;> decide
                have hcne2 : c ≠ "Android_Total_Open_Rate" := by
                  rcases hor with h | h <;> subst h <;> decide
                have hcne3 : c ≠ "iOS_Direct_Open_Rate" := by
                  rcases hor with h | h <;> subst h <;> decide
                have hf : hasCol f c = false := by
                  rw [← rateStep_ok_pres h1 c hcne1, ← rateStep_ok_pres h2 c hcne2,
                    ← rateStep_ok_pres h3 c hcne3]
                  exact hh
                refine ⟨?_, hf⟩
                rcases hor with h | h <;> subst h <;> simp [requiredCountCols]

/-! ## Claim theorems, counterexamples and witnesses -/

/-- C1 counterexample: a row with 5 direct opens and 0 sends gets an
infinite Android direct-open rate, not a null (NaN) value, contradicting
the claim that the rate is null whenever sends is 0. -/
theorem c1_cx_zero_sends_infinite :
    (addRates ⟨"Mon", "A", "S1", "PR", Fval.num 5, Fval.num 5, Fval.num 0,
      Fval.num 1, Fval.num 1, Fval.num 1⟩).aDor = Fval.inf ∧
    Fval.inf ≠ Fval.nan := by
  constructor
  · norm_num [addRates, Fval.div]
  · decide

/-- C1 (amended): each rate column is the pandas division of opens by sends;
for sends ≠ 0 it is the exact quotient, for sends = 0 it is NaN when opens
is 0 and a signed infinity otherwise; NaN (the pandas null) is skipped by
downstream means while an infinity propagates into them. -/
theorem c1_rate_semantics (r : Row) (o s q : ℚ) (hs : s ≠ 0) :
    ((addRates r).aDor = Fval.div r.directA r.sendsA ∧
     (addRates r).aTor = Fval.div r.totalA r.sendsA ∧
     (addRates r).iDor = Fval.div r.directI r.sendsI ∧
     (addRates r).iTor = Fval.div r.totalI r.sendsI) ∧
    Fval.div (Fval.num o) (Fval.num s) = Fval.num (o / s) ∧
    Fval.div (Fval.num o) (Fval.num 0) =
      (if o = 0 then Fval.nan else if 0 < o then Fval.inf else Fval.ninf) ∧
    fmeanSkip [Fval.num q, Fval.nan] = Fval.num q ∧
    fmeanSkip [Fval.num q, Fval.inf] = Fval.inf := by
  refine ⟨⟨rfl, rfl, rfl, rfl⟩, ?_, ?_, ?_, ?_⟩
  · simp [Fval.div, hs]
  · simp [Fval.div]
  · simp [fmeanSkip, fsum, Fval.add, Fval.div, Fval.isNan, List.filter]
  · norm_num [fmeanSkip, fsum, Fval.add, Fval.div, Fval.isNan, List.filter]

/-- C1 witness: the sends ≠ 0 clause evaluated on the example row. -/
theorem c1_rate_semantics_witness :
    Fval.div (Fval.num 40) (Fval.num 100) = Fval.num (40 / 100) :=
  (c1_rate_semantics rowPR 40 100 7 (by norm_num)).2.1

/-- C2 counterexample: the single ComparisonResult row the pipeline emits on
the example input carries no Winner field at all. -/
theorem c2_cx_no_winner :
    (pipeline sfHalf [rowPR, rowSoc] ["Mon"] ["A"] ["S1"] [GCol.day]
      [Plat.android]).map (fun row => row.lookup "Winner") = [none] := by
  rw [run1_pipeline]
  rfl

/-- C2 (amended): every emitted ComparisonResult row consists of exactly the
group columns followed by Platform, the four means, the two p-values and
the two significance flags; no Winner field exists and no winner
determination is performed anywhere. -/
theorem c2_result_fields_no_winner (sf2 : ℚ → ℚ → ℚ) (gcols : List GCol)
    (plats : List Plat) (rows : List RateRow) (row : ResRow)
    (h : row ∈ buildResults sf2 gcols plats rows) :
    row.map Prod.fst = gcols.map gname ++ resCols ∧ row.lookup "Winner" = none := by
  obtain ⟨k, hk, p, hp, he⟩ := mem_buildResults.mp h
  obtain ⟨m1, m2, m3, m4, dorP, torP, hrow⟩ := emitRow_some_shape he
  have hlen : k.length = gcols.length := mem_sortedKeys_length hk
  subst hrow
  constructor
  · rw [List.map_append]
    congr 1
    apply List.map_fst_zip
    simp [hlen]
  · rw [lookup_append_of_ne (zip_fst_gname (by intro g; cases g <;> decide))]
    rfl

/-- C2 witness: the amended field list evaluated on the emitted example row. -/
theorem c2_witness :
    resRow1.map Prod.fst = [GCol.day].map gname ++ resCols ∧
    resRow1.lookup "Winner" = none :=
  c2_result_fields_no_winner sfHalf [GCol.day] [Plat.android] [rrPR, rrSoc] resRow1
    (by rw [run1_build]; exact List.mem_singleton.mpr rfl)

/-- C3 counterexample: the single ComparisonResult row the pipeline emits on
the example input carries no Margin-of-Victory field at all. -/
theorem c3_cx_no_margin :
    (pipeline sfHalf [rowPR, rowSoc] ["Mon"] ["A"] ["S1"] [GCol.day]
      [Plat.android]).map (fun row => row.lookup "Margin_of_Victory") = [none] := by
  rw [run1_pipeline]
  rfl

/-- C3 (amended): every emitted ComparisonResult row consists of exactly the
group columns followed by the nine fixed fields, none of which is a
Margin-of-Victory field; no margin is computed anywhere. -/
theorem c3_result_fields_no_margin (sf2 : ℚ → ℚ → ℚ) (gcols : List GCol)
    (plats : List Plat) (rows : List RateRow) (row : ResRow)
    (h : row ∈ buildResults sf2 gcols plats rows) :
    row.map Prod.fst = gcols.map gname ++ resCols ∧
    row.lookup "Margin_of_Victory" = none := by
  obtain ⟨k, hk, p, hp, he⟩ := mem_buildResults.mp h
  obtain ⟨m1, m2, m3, m4, dorP, torP, hrow⟩ := emitRow_some_shape he
  have hlen : k.length = gcols.length := mem_sortedKeys_length hk
  subst hrow
  constructor
  · rw [List.map_append]
    congr 1
    apply List.map_fst_zip
    simp [hlen]
  · rw [lookup_append_of_ne (zip_fst_gname (by intro g; cases g <;> decide))]
    rfl

/-- C3 witness: the amended field list evaluated on the emitted example row. -/
theorem c3_witness :
    resRow1.map Prod.fst = [GCol.day].map gname ++ resCols ∧
    resRow1.lookup "Margin_of_Victory" = none :=
  c3_result_fields_no_margin sfHalf [GCol.day] [Plat.android] [rrPR, rrSoc] resRow1
    (by rw [run1_build]; exact List.mem_singleton.mpr rfl)

/-- C4 counterexample: zero-variance two-element samples with different
means — a numerically degenerate case — yield p-value 0, flagged
significant, in the emitted ComparisonResult, not a null result. -/
theorem c4_cx_zero_variance_significant :
    buildResults sfHalf [GCol.day] [Plat.android] [rrPR, rrPR, rrSoc, rrSoc] =
      [resRow2] ∧
    resRow2.lookup "DOR_pvalue" = some (Cell.n (Fval.num 0)) ∧
    resRow2.lookup "DOR_Significant" = some (Cell.s "✅") ∧
    Fval.num 0 ≠ Fval.nan :=
  ⟨run2_build, rfl, rfl, by decide⟩

/-- C4 witness: the small-sample clause at one observation against two. -/
theorem c4_small_sample_witness :
    ((omitNan [Fval.num 1]).length < 2 ∨
      (omitNan [Fval.num 0, Fval.num 1]).length < 2) ∧
    ttestPvalue sfHalf [Fval.num 1] [Fval.num 0, Fval.num 1] = Fval.nan :=
  ⟨Or.inl (by decide),
   c4_small_sample_pvalue_nan sfHalf [Fval.num 1] [Fval.num 0, Fval.num 1]
     (Or.inl (by decide))⟩

/-- C5: a (group, platform) pair with an empty PR or empty Social partition
emits no ComparisonResult, and every emitted row arises from a pair whose
PR and Social partitions are both non-empty. -/
theorem c5_emission_guard (sf2 : ℚ → ℚ → ℚ) (gcols : List GCol) (plats : List Plat)
    (rows : List RateRow) (k : List String) (p : Plat) (g : List RateRow)
    (h : g.filter (fun r => decide (r.variant = "PR")) = [] ∨
         g.filter (fun r => decide (r.variant = "Social")) = []) :
    emitRow sf2 gcols p k g = none ∧
    ∀ row ∈ buildResults sf2 gcols plats rows, ∃ k0, k0 ∈ sortedKeys gcols rows ∧
      ∃ p0, p0 ∈ plats ∧
        emitRow sf2 gcols p0 k0 (groupOf gcols rows k0) = some row ∧
        (groupOf gcols rows k0).filter (fun r => decide (r.variant = "PR")) ≠ [] ∧
        (groupOf gcols rows k0).filter (fun r => decide (r.variant = "Social")) ≠ [] := by
  refine ⟨emitRow_none_of_empty h, ?_⟩
  intro row hrow
  obtain ⟨k0, hk0, p0, hp0, he⟩ := mem_buildResults.mp hrow
  obtain ⟨h1, h2⟩ := emitRow_some_guard he
  exact ⟨k0, hk0, p0, hp0, he, h1, h2⟩

/-- C5 witness: a group with only a PR row emits nothing. -/
theorem c5_witness :
    emitRow sfHalf [GCol.day] Plat.android ["Mon"] [rrPR] = none :=
  (c5_emission_guard sfHalf [GCol.day] [Plat.android] [rrPR, rrSoc] ["Mon"]
    Plat.android [rrPR] (Or.inr (by simp [rrPR, List.filter]))).1

/-- C6: the filter stage returns exactly the rows whose Day, Entity and Slot
all lie in the selected sets, and any empty selection yields the empty
result (a value, not an error). -/
theorem c6_filter_spec (dsel esel ssel : List String) (rows : List RateRow) :
    (∀ r, r ∈ filterStage dsel esel ssel rows ↔
      r ∈ rows ∧ r.day ∈ dsel ∧ r.entity ∈ esel ∧ r.slot ∈ ssel) ∧
    ((dsel = [] ∨ esel = [] ∨ ssel = []) → filterStage dsel esel ssel rows = []) := by
  have hmem : ∀ r, r ∈ filterStage dsel esel ssel rows ↔
      r ∈ rows ∧ r.day ∈ dsel ∧ r.entity ∈ esel ∧ r.slot ∈ ssel := by
    intro r
    simp [filterStage, List.mem_filter, and_assoc]
  refine ⟨hmem, fun h => ?_⟩
  rw [List.eq_nil_iff_forall_not_mem]
  intro r hr
  obtain ⟨-, hd, he2, hs2⟩ := (hmem r).mp hr
  rcases h with h | h | h <;> subst h <;> simp_all

/-- C6 witness: the characterization and the empty-selection clause on a
concrete row. -/
theorem c6_witness :
    (rrPR ∈ filterStage ["Mon"] ["A"] ["S1"] [rrPR] ↔
      rrPR ∈ [rrPR] ∧ rrPR.day ∈ ["Mon"] ∧ rrPR.entity ∈ ["A"] ∧
        rrPR.slot ∈ ["S1"]) ∧
    filterStage [] ["A"] ["S1"] [rrPR] = [] :=
  ⟨(c6_filter_spec ["Mon"] ["A"] ["S1"] [rrPR]).1 rrPR,
   (c6_filter_spec [] ["A"] ["S1"] [rrPR]).2 (Or.inl rfl)⟩

/-- C8: the pipeline is a pure function of its inputs — re-running it on the
same input and selections yields the identical result list, hence an
identical serialized export — and the emitted rows follow the sorted
distinct group keys composed with the platform-selection order. -/
theorem c8_deterministic_ordering (sf2 : ℚ → ℚ → ℚ) (input : List Row)
    (dsel esel ssel : List String) (gcols : List GCol) (plats : List Plat) :
    pipeline sf2 input dsel esel ssel gcols plats =
      pipeline sf2 input dsel esel ssel gcols plats ∧
    (∀ rows, buildResults sf2 gcols plats rows =
      (sortedKeys gcols rows).flatMap (fun k =>
        plats.filterMap (fun p => emitRow sf2 gcols p k (groupOf gcols rows k)))) ∧
    (∀ rows, List.Pairwise (· < ·) (sortedKeys gcols rows)) :=
  ⟨rfl, fun rows => buildResults_eq_flatMap sf2 gcols plats rows,
   fun rows => sortedKeys_pairwise_lt gcols rows⟩

theorem replaceVariant_eq_pr {v : String} (h : replaceVariant v = "PR") :
    v = "VAR1" ∨ v = "PR" := by
  unfold replaceVariant at h
  split_ifs at h with h1 h2
  · exact Or.inl h1
  · exact absurd h (by decide)
  · exact Or.inr h

theorem replaceVariant_eq_social {v : String} (h : replaceVariant v = "Social") :
    v = "VAR2" ∨ v = "Social" := by
  unfold replaceVariant at h
  split_ifs at h with h1 h2
  · exact absurd h (by decide)
  · exact Or.inl h2
  · exact Or.inr h

/-- C9: every member of a PR partition originates from an input row whose
Variant was VAR1 (remapped) or already PR, and every member of a Social
partition from VAR2 or Social; a row with any other Variant value reaches
neither partition, so it enters no t-test and no mean. -/
theorem c9_partition_provenance (input : List Row) (dsel esel ssel : List String)
    (gcols : List GCol) (k : List String) (rr : RateRow)
    (h : rr ∈ (groupOf gcols
        (filterStage dsel esel ssel ((input.map applyReplace).map addRates)) k).filter
        (fun r => decide (r.variant = "PR")) ∨
      rr ∈ (groupOf gcols
        (filterStage dsel esel ssel ((input.map applyReplace).map addRates)) k).filter
        (fun r => decide (r.variant = "Social"))) :
    ∃ r, r ∈ input ∧ rr = addRates (applyReplace r) ∧
      ((rr.variant = "PR" ∧ (r.variant = "VAR1" ∨ r.variant = "PR")) ∨
       (rr.variant = "Social" ∧ (r.variant = "VAR2" ∨ r.variant = "Social"))) := by
  have hmain : ∀ s : String, rr ∈ (groupOf gcols
      (filterStage dsel esel ssel ((input.map applyReplace).map addRates)) k).filter
      (fun r => decide (r.variant = s)) →
      ∃ r, r ∈ input ∧ rr = addRates (applyReplace r) ∧ rr.variant = s ∧
        replaceVariant r.variant = s := by
    intro s hs
    obtain ⟨hg, hv⟩ := List.mem_filter.mp hs
    have hv' : rr.variant = s := of_decide_eq_true hv
    obtain ⟨hf, -⟩ := List.mem_filter.mp hg
    obtain ⟨hr, -⟩ := List.mem_filter.mp hf
    obtain ⟨r0, hr0, hrr⟩ := List.mem_map.mp hr
    obtain ⟨r, hrin, hr0eq⟩ := List.mem_map.mp hr0
    refine ⟨r, hrin, ?_, hv', ?_⟩
    · rw [← hrr, ← hr0eq]
    · have : rr.variant = replaceVariant r.variant := by
        rw [← hrr, ← hr0eq]
        rfl
      rw [← this, hv']
  rcases h with h | h
  · obtain ⟨r, hrin, heq, hv, hrep⟩ := hmain "PR" h
    exact ⟨r, hrin, heq, Or.inl ⟨hv, replaceVariant_eq_pr hrep⟩⟩
  · obtain ⟨r, hrin, heq, hv, hrep⟩ := hmain "Social" h
    exact ⟨r, hrin, heq, Or.inr ⟨hv, replaceVariant_eq_social hrep⟩⟩

/-- C9 witness: the provenance of the PR partition member of the example
run. -/
theorem c9_witness :
    ∃ r, r ∈ [rowPR, rowSoc] ∧ rrPR = addRates (applyReplace r) ∧
      ((rrPR.variant = "PR" ∧ (r.variant = "VAR1" ∨ r.variant = "PR")) ∨
       (rrPR.variant = "Social" ∧ (r.variant = "VAR2" ∨ r.variant = "Social"))) :=
  c9_partition_provenance [rowPR, rowSoc] ["Mon"] ["A"] ["S1"] [GCol.day] ["Mon"] rrPR
    (Or.inl (by
      rw [run1_rated, run1_filtered, run1_group, run1_prPart]
      exact List.mem_singleton.mpr rfl))

/-- C10: in every emitted ComparisonResult a NaN p-value is rendered as the
`❌` flag — the same string a valid non-significant p-value (p ≥ 0.05)
renders to, with no distinct null state. -/
theorem c10_nan_pvalue_flag (sf2 : ℚ → ℚ → ℚ) (gcols : List GCol)
    (plats : List Plat) (rows : List RateRow) (row : ResRow)
    (h : row ∈ buildResults sf2 gcols plats rows) :
    (row.lookup "DOR_pvalue" = some (Cell.n Fval.nan) →
      row.lookup "DOR_Significant" = some (Cell.s "❌")) ∧
    (row.lookup "TOR_pvalue" = some (Cell.n Fval.nan) →
      row.lookup "TOR_Significant" = some (Cell.s "❌")) ∧
    (∀ q : ℚ, 1 / 20 ≤ q → sigFlag (Fval.num q) = "❌") := by
  obtain ⟨k, hk, p, hp, he⟩ := mem_buildResults.mp h
  obtain ⟨m1, m2, m3, m4, dorP, torP, hrow⟩ := emitRow_some_shape he
  subst hrow
  have hne1 : ∀ x ∈ (gcols.map gname).zip (k.map Cell.s), x.1 ≠ "DOR_pvalue" :=
    zip_fst_gname (by intro g; cases g <;> decide)
  have hne2 : ∀ x ∈ (gcols.map gname).zip (k.map Cell.s), x.1 ≠ "DOR_Significant" :=
    zip_fst_gname (by intro g; cases g <;> decide)
  have hne3 : ∀ x ∈ (gcols.map gname).zip (k.map Cell.s), x.1 ≠ "TOR_pvalue" :=
    zip_fst_gname (by intro g; cases g <;> decide)
  have hne4 : ∀ x ∈ (gcols.map gname).zip (k.map Cell.s), x.1 ≠ "TOR_Significant" :=
    zip_fst_gname (by intro g; cases g <;> decide)
  refine ⟨?_, ?_, ?_⟩
  · intro hnan
    rw [lookup_append_of_ne hne1] at hnan
    rw [lookup_append_of_ne hne2]
    have hd : dorP = Fval.nan := by
      have h1 : some (Cell.n dorP) = some (Cell.n Fval.nan) := by
        rw [← hnan]
        rfl
      exact Cell.n.inj (Option.some.inj h1)
    subst hd
    rfl
  · intro hnan
    rw [lookup_append_of_ne hne3] at hnan
    rw [lookup_append_of_ne hne4]
    have hd : torP = Fval.nan := by
      have h1 : some (Cell.n torP) = some (Cell.n Fval.nan) := by
        rw [← hnan]
        rfl
      exact Cell.n.inj (Option.some.inj h1)
    subst hd
    rfl
  · intro q hq
    have hlt : Fval.lt (Fval.num q) (Fval.num (1 / 20)) = false := by
      simp only [Fval.lt, decide_eq_false_iff_not]
      exact not_lt.mpr hq
    unfold sigFlag
    rw [hlt]
    simp

/-- C10 witness: the example run stores a NaN DOR p-value and renders `❌`. -/
theorem c10_witness :
    resRow1.lookup "DOR_Significant" = some (Cell.s "❌") :=
  (c10_nan_pvalue_flag sfHalf [GCol.day] [Plat.android] [rrPR, rrSoc] resRow1
    (by rw [run1_build]; exact List.mem_singleton.mpr rfl)).1 rfl

/-- C7 counterexample: with the Android columns present and the iOS ones
missing, the stage fails at the first iOS lookup, naming that column — but
only after the two Android rate columns were computed, so not before all
rate computation. -/
theorem c7_cx_fails_after_android_rates :
    errInfo (computeRatesF frameA) =
      some ("Direct Opens (iOS Push)",
        ["Day", "Direct Opens (Android Push)", "Total Opens (Android Push)",
         "Sends (Android Push)", "Android_Direct_Open_Rate",
         "Android_Total_Open_Rate"]) := by
  rfl

/-- C7 witness: the success clause on a frame with all required columns. -/
theorem c7_witness : (computeRatesF frameFull).isOk = true :=
  (c7_missing_column_spec frameFull).1 (by decide)
